import Mathlib

/-!
Verification of the ha-ndarray array engine against its specification.

The definitions below are shallow embeddings of the Rust source in
`src/array.rs` and `src/lib.rs`: machine integers (`usize`) become `Nat`,
wrapping casts are made explicit, fallible constructors return `Except Error`,
and the stateful round-robin device counters become explicit state passing.
Each definition carries a doc comment citing the source lines it embeds.
-/

namespace HaNdarray

/-- The error taxonomy (lib.rs:28-33); the OpenCL driver variant is omitted
because no code path modelled here constructs it. -/
inductive Error
  | Bounds (msg : String)
  | Interface (msg : String)
deriving DecidableEq, Repr

/-- Canonical row-major strides for a shape (lib.rs:1827-1841, duplicated at
array.rs:1220-1234): leading `ndim - shape.len()` positions are zero, the
position for axis `x` is zero when the dimension is 1 and otherwise the
product of the last `shape.len() - 1 - x` dimensions. -/
def strides_for (shape : List Nat) (ndim : Nat) : List Nat :=
  List.replicate (ndim - shape.length) 0 ++
    shape.enum.map (fun p =>
      if p.2 = 1 then 0
      else (shape.reverse.take (shape.length - 1 - p.1)).prod)

/-- An owned array: a shape and a contiguous data vector (array.rs:19-23). -/
structure ArrayBase (α : Type) where
  shape : List Nat
  data : List α
deriving DecidableEq, Repr

/-- ArrayBase::from_vec (array.rs:62-73): succeed exactly when the data length
equals the product of the dimensions. -/
def ArrayBase.from_vec (shape : List Nat) (data : List α) : Except Error (ArrayBase α) :=
  let size := shape.prod
  if data.length = size then
    .ok ⟨shape, data⟩
  else
    .error (.Bounds "data were provided for an array of a different size")

/-- The wrapping cast `self as i8` applied to a `u8` value (a Rust `as` cast
reinterprets the byte, so values ≥ 128 come out negative). -/
def u8_as_i8 (x : Nat) : Int :=
  if x % 256 < 128 then ((x % 256 : Nat) : Int) else ((x % 256 : Nat) : Int) - 256

/-- CDatatype::neg for `u8` (the `c_type!` body at lib.rs:216-222, instantiated
for `u8` at lib.rs:243): `if self >= 0 { self as i8 } else { -(self as i8) }`.
For an unsigned value the first branch always applies, so the result is the
bare wrapping cast with no sign change. -/
def u8_neg (x : Nat) : Int :=
  if 0 ≤ x then u8_as_i8 x else -(u8_as_i8 x)

/-- A view node: explicit shape and strides over a source (array.rs:905-910).
The source array itself is represented separately, by the buffer its own
`read` produced. -/
structure ArrayView where
  shape : List Nat
  strides : List Nat
deriving DecidableEq, Repr

/-- The host branch of ArrayView::read (array.rs:1010-1038): for every output
offset, decompose it into a coordinate via the canonical strides of the view shape
(treating zero-stride axes as coordinate 0), convert the coordinate to a
source offset with the stored strides of the view, and fetch that source element.
The panicking Rust index `buffer[source_offset]` is rendered as `getD`. -/
def view_read_host (v : ArrayView) (source : List α) (dflt : α) : List α :=
  let strides := strides_for v.shape v.shape.length
  let dims := v.shape
  (List.range v.shape.prod).map (fun offset =>
    let coord := List.zipWith
      (fun stride dim => if stride = 0 then 0 else (offset / stride) % dim)
      strides dims
    let source_offset := (List.zipWith (fun i s => i * s) coord v.strides).sum
    source.getD source_offset dflt)

/-- One axis of a slice (lib.rs:1703-1708). -/
inductive AxisBound
  | At (i : Nat)
  | In (start stop step : Nat)
  | Of (indices : List Nat)
deriving DecidableEq, Repr

/-- AxisBound::size (lib.rs:1711-1717). `stop - start` is `usize` subtraction:
when `start > stop` the Rust code underflows (panicking in debug builds);
here `Nat` subtraction truncates to zero instead, so this model is faithful
only for `start ≤ stop`. -/
def AxisBound.size : AxisBound → Nat
  | .At _ => 0
  | .In start stop step => (stop - start) / step
  | .Of indices => indices.length

/-- check_bound (array.rs:1209-1217): an index must be strictly below the
dimension; a range endpoint may also equal it. -/
def check_bound (i dim : Nat) (is_index : Bool) : Except Error Unit :=
  match compare i dim with
  | .lt => .ok ()
  | .eq => if is_index then .error (.Bounds "index is out of bounds for dimension") else .ok ()
  | .gt => .error (.Bounds "index is out of bounds for dimension")

/-- The `Of` arm of the validation loop in ArraySlice::new (array.rs:637-641):
check every gather index against the dimension. The Rust `?` operator is the
explicit propagation match. -/
def check_indices (indices : List Nat) (dim : Nat) : Except Error Unit :=
  match indices with
  | [] => .ok ()
  | i :: rest =>
      match check_bound i dim true with
      | .error e => .error e
      | .ok () => check_indices rest dim

/-- One iteration of the validation loop in ArraySlice::new (array.rs:631-642):
dispatch on the bound variant. -/
def check_one : AxisBound → Nat → Except Error Unit
  | .At i, dim => check_bound i dim true
  | .In start stop _step, dim =>
      (match check_bound start dim false with
      | .error e => .error e
      | .ok () => check_bound stop dim false)
  | .Of indices, dim => check_indices indices dim

/-- The validation loop of ArraySlice::new (array.rs:630-643) over the bounds
zipped with the source shape. -/
def check_bounds : List (AxisBound × Nat) → Except Error Unit
  | [] => .ok ()
  | (bound, dim) :: rest =>
      match check_one bound dim with
      | .error e => .error e
      | .ok () => check_bounds rest

/-- A slice node: the extended bounds and the output shape (array.rs:613-618).
The source array is represented by its shape. -/
structure ArraySlice where
  bounds : List AxisBound
  shape : List Nat
deriving DecidableEq, Repr

/-- ArraySlice::new (array.rs:621-669): reject more bounds than source axes,
validate each bound against its dimension, pad with full-range bounds taken
from the trailing source dimensions, and keep only the positive bound sizes
as the output shape. -/
def ArraySlice.new (source_shape : List Nat) (bounds : List AxisBound) :
    Except Error ArraySlice :=
  if bounds.length > source_shape.length then
    .error (.Bounds "shape does not support slice bounds")
  else
    match check_bounds (bounds.zip source_shape) with
    | .error e => .error e
    | .ok () =>
      let tail_bounds :=
        ((source_shape.reverse.take (source_shape.length - bounds.length)).map
          (fun dim => AxisBound.In 0 dim 1)).reverse
      let bounds' := bounds ++ tail_bounds
      let shape := (bounds'.map AxisBound.size).filter (fun size => 0 < size)
      .ok ⟨bounds', shape⟩

/-- Modelled from the spec: `MatMul::new` lives in the `ops` module, which is
not present under src/. Per §4.4 an operator node captures its inputs (plus a
prebuilt device kernel) at construction, and §5 states operator construction
is non-blocking; it is therefore modelled as always succeeding. -/
def MatMul.new (_left _right : List Nat) : Except Error Unit := .ok ()

/-- MatrixMath::matmul (lib.rs:1522-1570) acting on the two input shapes:
both inputs need at least two dimensions, equal rank, element-equal batch
prefixes and matching inner dimensions; the result shape is the batch prefix
followed by the two outer dimensions. -/
def matmul (self_shape other_shape : List Nat) : Except Error (List Nat) :=
  if self_shape.length < 2 ∨ other_shape.length < 2 then
    .error (.Bounds "invalid matrices for matmul")
  else
    let ndim := self_shape.length
    let batch := self_shape.take (ndim - 2)
    if other_shape.length ≠ ndim then
      .error (.Bounds "matrix multiply expects the same number of dimensions")
    else if other_shape.take (ndim - 2) ≠ batch then
      .error (.Bounds "matrix multiply requires the same batch shape")
    else
      let a := self_shape.getD (ndim - 2) 0
      let b := self_shape.getD (ndim - 1) 0
      let c := other_shape.getD (ndim - 1) 0
      if other_shape.getD (ndim - 2) 0 ≠ b then
        .error (.Bounds "invalid dimensions for matrix multiply")
      else
        match MatMul.new self_shape other_shape with
        | .error e => .error e
        | .ok () => .ok (batch ++ [a, c])

/-- A device list of one class (lib.rs:294-299): the devices (as opaque ids)
plus the atomic round-robin counter, here explicit state. -/
structure DeviceList where
  devices : List Nat
  next : Nat
deriving DecidableEq, Repr

/-- DeviceList::next (lib.rs:307-314): an empty list yields nothing and leaves
the counter alone; otherwise fetch-and-increment the counter and serve the
device at the old counter value modulo the list length. -/
def DeviceList.nextDevice (l : DeviceList) : Option Nat × DeviceList :=
  if l.devices.isEmpty then (none, l)
  else
    let idx := l.next
    (l.devices.get? (idx % l.devices.length), { l with next := idx + 1 })

/-- The three device classes of the platform (lib.rs:918-928). -/
structure Platform where
  cl_cpus : DeviceList
  cl_gpus : DeviceList
  cl_accs : DeviceList
deriving DecidableEq, Repr

/-- Platform::next_cpu (lib.rs:937-939), with the updated counters returned. -/
def Platform.next_cpu (p : Platform) : Option Nat × Platform :=
  let (d, l) := p.cl_cpus.nextDevice
  (d, { p with cl_cpus := l })

/-- Platform::next_gpu (lib.rs:942-944). -/
def Platform.next_gpu (p : Platform) : Option Nat × Platform :=
  let (d, l) := p.cl_gpus.nextDevice
  (d, { p with cl_gpus := l })

/-- Platform::next_acc (lib.rs:947-949). -/
def Platform.next_acc (p : Platform) : Option Nat × Platform :=
  let (d, l) := p.cl_accs.nextDevice
  (d, { p with cl_accs := l })

/-- `Option::or_else` over the stateful device lookups: the fallback runs only
when the first lookup produced no device. -/
def orElseDev (x : Option Nat × Platform) (f : Platform → Option Nat × Platform) :
    Option Nat × Platform :=
  match x with
  | (some d, p) => (some d, p)
  | (none, p) => f p

/-- The selection-relevant fields of a Context (lib.rs:970-978). -/
structure Context where
  platform : Platform
  gpu_min : Nat
  acc_min : Nat
deriving DecidableEq, Repr

/-- Context::select_device (lib.rs:1051-1064): below `gpu_min` take the next
CPU; below `acc_min` take the next GPU falling back to CPU; otherwise take
the next accelerator falling back to GPU then CPU. -/
def Context.select_device (c : Context) (size_hint : Nat) : Option Nat × Platform :=
  if size_hint < c.gpu_min then
    c.platform.next_cpu
  else if size_hint < c.acc_min then
    orElseDev c.platform.next_gpu Platform.next_cpu
  else
    orElseDev (orElseDev c.platform.next_acc Platform.next_gpu) Platform.next_cpu

/-- ArrayBase::transpose (array.rs:210-231): validate the axes permutation
(default: reversed axis order), permute the shape, and permute the canonical
strides of the source shape; the result is the shape and strides of the view. -/
def base_transpose (shape : List Nat) (axes? : Option (List Nat)) :
    Except Error ArrayView :=
  let ndim := shape.length
  let axesE : Except Error (List Nat) :=
    match axes? with
    | some axes =>
        if axes.length = ndim && (List.range ndim).all (fun x => axes.contains x) then
          .ok axes
        else
          .error (.Bounds "invalid permutation for shape")
    | none => .ok ((List.range ndim).reverse)
  axesE.map (fun axes =>
    let shape' := axes.map (fun x => shape.getD x 0)
    let source_strides := strides_for shape ndim
    let strides := axes.map (fun x => source_strides.getD x 0)
    ⟨shape', strides⟩)

/-- `NDArrayTransform for ArrayView`, fn transpose (array.rs:1169-1171): the
body is `todo!()`, which panics unconditionally, so transposing a view through
the transform trait never produces a result; modelled as `none`. -/
def view_trait_transpose (_v : ArrayView) (_axes? : Option (List Nat)) :
    Option ArrayView :=
  none

/-- The identity/bound values and arithmetic of one scalar type, as provided
by the CDatatype impls (the `c_type!` invocations at lib.rs:231-250). -/
structure CType (α : Type) where
  zero : α
  one : α
  minV : α
  maxV : α
  add : α → α → α
  mul : α → α → α
  lt : α → α → Bool
  beq : α → α → Bool

/-- The rayon `ParallelIterator::reduce(identity, op)` modelled sequentially:
fold the operation over the elements starting from the identity element;
on an empty iterator rayon returns `identity()`. -/
def par_reduce (ident : α) (op : α → α → α) (l : List α) : α :=
  l.foldl op ident

/-- `BufferReduce for Vec<T>`, fn sum (lib.rs:639-641). -/
def vec_sum (c : CType α) (l : List α) : α :=
  par_reduce c.zero c.add l

/-- `BufferReduce for Vec<T>`, fn product (lib.rs:635-637). -/
def vec_product (c : CType α) (l : List α) : α :=
  par_reduce c.one c.mul l

/-- `BufferReduce for Vec<T>`, fn max (lib.rs:611-621): reduce with identity
`T::min` and collector `if r > l { r } else { l }`. -/
def vec_max (c : CType α) (l : List α) : α :=
  par_reduce c.minV (fun a r => if c.lt a r then r else a) l

/-- `BufferReduce for Vec<T>`, fn min (lib.rs:623-633): reduce with identity
`T::max` and collector `if r < l { r } else { l }`. -/
def vec_min (c : CType α) (l : List α) : α :=
  par_reduce c.maxV (fun a r => if c.lt r a then r else a) l

/-- `BufferReduce for Vec<T>`, fn all (lib.rs:601-604): every element nonzero. -/
def vec_all (c : CType α) (l : List α) : Bool :=
  l.all (fun n => !(c.beq n c.zero))

/-- `BufferReduce for Vec<T>`, fn any (lib.rs:606-609): some element nonzero. -/
def vec_any (c : CType α) (l : List α) : Bool :=
  l.any (fun n => !(c.beq n c.zero))

/-- The `i32` scalar type as instantiated by `c_type!` (lib.rs:249), with the
carrier embedded in `Int`. -/
def i32Type : CType Int where
  zero := 0
  one := 1
  minV := -(2 ^ 31)
  maxV := 2 ^ 31 - 1
  add := (· + ·)
  mul := (· * ·)
  lt := fun a b => decide (a < b)
  beq := fun a b => decide (a = b)

/-- The per-axis validity condition the spec states for slice bounds, written
from the words of the spec for comparison against `ArraySlice.new`, with the
one amendment the code forces: `start ≤ stop` does not appear because the
source never checks it. -/
def spec_bound_valid : AxisBound → Nat → Prop
  | .At i, dim => i < dim
  | .In start stop _step, dim => start ≤ dim ∧ stop ≤ dim
  | .Of indices, dim => ∀ i ∈ indices, i < dim

deriving instance DecidableEq for Except

instance (b : AxisBound) (dim : Nat) : Decidable (spec_bound_valid b dim) :=
  match b with
  | .At i => inferInstanceAs (Decidable (i < dim))
  | .In start stop _step => inferInstanceAs (Decidable (start ≤ dim ∧ stop ≤ dim))
  | .Of indices => inferInstanceAs (Decidable (∀ i ∈ indices, i < dim))

/-! ## Helper lemmas -/

/-- `strides_for` always returns `max ndim shape.length` strides. -/
theorem strides_for_length (shape : List Nat) (ndim : Nat) :
    (strides_for shape ndim).length = ndim - shape.length + shape.length := by
  simp [strides_for, List.enum_length]

/-- The entry of `strides_for` at axis `i` of the shape (position
`ndim - shape.length + i`): zero for a unit axis, otherwise the product of the
dimensions strictly to the right of axis `i`. -/
theorem strides_for_getD (shape : List Nat) (ndim : Nat) (i : Nat) (hi : i < shape.length) :
    (strides_for shape ndim).getD (ndim - shape.length + i) 1 =
      if shape.getD i 0 = 1 then 0 else (shape.drop (i + 1)).prod := by
  unfold strides_for
  rw [List.getD_append_right _ _ _ _ (by simp)]
  have hlen : ndim - shape.length + i - (List.replicate (ndim - shape.length) (0 : Nat)).length = i := by
    simp
  rw [hlen]
  have hmap : i < (shape.enum.map (fun p =>
      if p.2 = 1 then 0 else (shape.reverse.take (shape.length - 1 - p.1)).prod)).length := by
    simpa [List.enum_length] using hi
  rw [List.getD_eq_getElem _ _ hmap, List.getElem_map, List.getElem_enum]
  rw [List.getD_eq_getElem _ _ hi]
  have harith : shape.length - (shape.length - 1 - i) = i + 1 := by omega
  have hprod : (shape.reverse.take (shape.length - 1 - i)).prod = (shape.drop (i + 1)).prod := by
    rw [List.take_reverse, List.prod_reverse, harith]
  rw [hprod]

/-- `check_bound` succeeds exactly on a strict bound for an index and a weak
bound for a range endpoint. -/
theorem check_bound_ok_iff (i dim : Nat) (b : Bool) :
    check_bound i dim b = .ok () ↔ (i < dim ∨ (i = dim ∧ b = false)) := by
  unfold check_bound
  cases hc : compare i dim with
  | lt =>
      have h := Nat.compare_eq_lt.mp hc
      simp [h]
  | eq =>
      have h := Nat.compare_eq_eq.mp hc
      subst h
      cases b <;> simp
  | gt =>
      have h := Nat.compare_eq_gt.mp hc
      simp only [reduceCtorEq, false_iff]
      omega

/-- Every `check_bound` failure is a `Bounds` error. -/
theorem check_bound_error_isBounds (i dim : Nat) (b : Bool) (e : Error)
    (h : check_bound i dim b = .error e) : ∃ msg, e = .Bounds msg := by
  unfold check_bound at h
  cases hc : compare i dim <;> rw [hc] at h
  · exact absurd h (by simp)
  · cases b with
    | true => exact ⟨_, (Except.error.inj h).symm⟩
    | false => exact absurd h (by simp)
  · exact ⟨_, (Except.error.inj h).symm⟩

/-- For an index (`is_index = true`), `check_bound` succeeds exactly on `<`. -/
theorem check_bound_ok_strict (i dim : Nat) :
    check_bound i dim true = .ok () ↔ i < dim := by
  rw [check_bound_ok_iff]
  constructor
  · rintro (h | ⟨_, hb⟩)
    · exact h
    · exact absurd hb (by simp)
  · exact Or.inl

/-- For a range endpoint (`is_index = false`), `check_bound` succeeds exactly
on `≤`. -/
theorem check_bound_ok_range (i dim : Nat) :
    check_bound i dim false = .ok () ↔ i ≤ dim := by
  rw [check_bound_ok_iff]
  constructor
  · rintro (h | ⟨h, _⟩) <;> omega
  · intro h
    rcases Nat.eq_or_lt_of_le h with h1 | h1
    · exact Or.inr ⟨h1, rfl⟩
    · exact Or.inl h1

/-- `check_indices` succeeds exactly when every gather index is in bounds. -/
theorem check_indices_ok_iff (indices : List Nat) (dim : Nat) :
    check_indices indices dim = .ok () ↔ ∀ i ∈ indices, i < dim := by
  induction indices with
  | nil => simp [check_indices]
  | cons i rest ih =>
      unfold check_indices
      cases hc : check_bound i dim true with
      | ok u =>
          cases u
          have hi : i < dim := by
            rcases (check_bound_ok_iff i dim true).mp hc with h | ⟨_, hb⟩
            · exact h
            · exact absurd hb (by simp)
          simp [ih, hi]
      | error e =>
          have hni : ¬ i < dim := by
            intro hlt
            rw [(check_bound_ok_iff i dim true).mpr (Or.inl hlt)] at hc
            exact absurd hc (by simp)
          simp [hni]

/-- Every `check_indices` failure is a `Bounds` error. -/
theorem check_indices_error_isBounds (indices : List Nat) (dim : Nat) (e : Error)
    (h : check_indices indices dim = .error e) : ∃ msg, e = .Bounds msg := by
  induction indices with
  | nil => exact absurd h (by simp [check_indices])
  | cons i rest ih =>
      unfold check_indices at h
      cases hc : check_bound i dim true with
      | ok u =>
          cases u
          rw [hc] at h
          exact ih h
      | error e' =>
          rw [hc] at h
          cases Except.error.inj h
          exact check_bound_error_isBounds i dim true e hc

/-- `check_one` succeeds exactly on the validity condition of the bound. -/
theorem check_one_ok_iff (bound : AxisBound) (dim : Nat) :
    check_one bound dim = .ok () ↔ spec_bound_valid bound dim := by
  cases bound with
  | At i =>
      simp only [check_one, spec_bound_valid]
      exact check_bound_ok_strict i dim
  | In start stop _step =>
      simp only [check_one, spec_bound_valid]
      cases hs : check_bound start dim false with
      | ok u =>
          cases u
          have h1 : start ≤ dim := (check_bound_ok_range start dim).mp hs
          show check_bound stop dim false = .ok () ↔ (start ≤ dim ∧ stop ≤ dim)
          rw [check_bound_ok_range]
          exact ⟨fun h2 => ⟨h1, h2⟩, fun h2 => h2.2⟩
      | error e =>
          have h1 : ¬ start ≤ dim := by
            intro hle
            rw [(check_bound_ok_range start dim).mpr hle] at hs
            exact absurd hs (by simp)
          simp [h1]
  | Of indices =>
      simp only [check_one, spec_bound_valid]
      exact check_indices_ok_iff indices dim

/-- Every `check_one` failure is a `Bounds` error. -/
theorem check_one_error_isBounds (bound : AxisBound) (dim : Nat) (e : Error)
    (h : check_one bound dim = .error e) : ∃ msg, e = .Bounds msg := by
  cases bound with
  | At i => exact check_bound_error_isBounds i dim true e h
  | In start stop _step =>
      simp only [check_one] at h
      cases hs : check_bound start dim false with
      | ok u =>
          cases u
          rw [hs] at h
          exact check_bound_error_isBounds stop dim false e h
      | error e' =>
          rw [hs] at h
          cases Except.error.inj h
          exact check_bound_error_isBounds start dim false e hs
  | Of indices => exact check_indices_error_isBounds indices dim e h

/-- The validation loop succeeds exactly when every zipped bound is valid. -/
theorem check_bounds_ok_iff (l : List (AxisBound × Nat)) :
    check_bounds l = .ok () ↔ ∀ p ∈ l, spec_bound_valid p.1 p.2 := by
  induction l with
  | nil => simp [check_bounds]
  | cons p rest ih =>
      obtain ⟨bound, dim⟩ := p
      unfold check_bounds
      cases hc : check_one bound dim with
      | ok u =>
          cases u
          have hv := (check_one_ok_iff bound dim).mp hc
          simp [ih, hv]
      | error e =>
          have hnv : ¬ spec_bound_valid bound dim := by
            intro hv
            rw [(check_one_ok_iff bound dim).mpr hv] at hc
            exact absurd hc (by simp)
          simp [hnv]

/-- Every validation-loop failure is a `Bounds` error. -/
theorem check_bounds_error_isBounds (l : List (AxisBound × Nat)) (e : Error)
    (h : check_bounds l = .error e) : ∃ msg, e = .Bounds msg := by
  induction l with
  | nil => exact absurd h (by simp [check_bounds])
  | cons p rest ih =>
      obtain ⟨bound, dim⟩ := p
      unfold check_bounds at h
      cases hc : check_one bound dim with
      | ok u =>
          cases u
          rw [hc] at h
          exact ih h
      | error e' =>
          rw [hc] at h
          cases Except.error.inj h
          exact check_one_error_isBounds bound dim e hc

/-! ## Claim theorems -/

/-- C2: for every non-empty shape and every `ndim ≥ shape.length`,
`strides_for shape ndim` has length `ndim`, its first `ndim - shape.length`
entries are 0, and its entry for axis `i` of the shape is 0 when
`shape[i] = 1` and otherwise the product of the dimensions strictly to the
right of axis `i`. -/
theorem strides_for_canonical (shape : List Nat) (ndim : Nat)
    (_hne : shape ≠ []) (hnd : shape.length ≤ ndim) :
    (strides_for shape ndim).length = ndim ∧
    (∀ j, j < ndim - shape.length → (strides_for shape ndim).getD j 1 = 0) ∧
    (∀ i, i < shape.length →
      (strides_for shape ndim).getD (ndim - shape.length + i) 1 =
        if shape.getD i 0 = 1 then 0 else (shape.drop (i + 1)).prod) := by
  refine ⟨?_, ?_, ?_⟩
  · rw [strides_for_length]
    omega
  · intro j hj
    unfold strides_for
    rw [List.getD_append _ _ _ _ (by simpa using hj)]
    rw [List.getD_eq_getElem _ _ (by simpa using hj)]
    simp
  · intro i hi
    exact strides_for_getD shape ndim i hi

/-- C2 witness: the theorem instantiated at shape `[2, 1, 3]`, `ndim = 5`. -/
theorem strides_for_canonical_w :
    (([2, 1, 3] : List Nat) ≠ [] ∧ ([2, 1, 3] : List Nat).length ≤ 5) ∧
    ((strides_for [2, 1, 3] 5).length = 5 ∧
     (∀ j, j < 5 - ([2, 1, 3] : List Nat).length → (strides_for [2, 1, 3] 5).getD j 1 = 0) ∧
     (∀ i, i < ([2, 1, 3] : List Nat).length →
       (strides_for [2, 1, 3] 5).getD (5 - ([2, 1, 3] : List Nat).length + i) 1 =
         if ([2, 1, 3] : List Nat).getD i 0 = 1 then 0
         else (([2, 1, 3] : List Nat).drop (i + 1)).prod)) :=
  ⟨⟨by decide, by decide⟩, strides_for_canonical [2, 1, 3] 5 (by decide) (by decide)⟩

/-- C8: `ArrayBase::from_vec` succeeds exactly when the data length equals the
product of the dimensions, returns a `Bounds` error otherwise, and on success
the array carries exactly the given shape and data. -/
theorem from_vec_ok_iff (shape : List Nat) (data : List α) :
    ((ArrayBase.from_vec shape data).isOk = true ↔ data.length = shape.prod) ∧
    (∀ a, ArrayBase.from_vec shape data = .ok a → a.shape = shape ∧ a.data = data) ∧
    (data.length ≠ shape.prod →
      ∃ msg, ArrayBase.from_vec shape data = .error (.Bounds msg)) := by
  refine ⟨?_, ?_, ?_⟩
  · unfold ArrayBase.from_vec
    by_cases h : data.length = shape.prod <;> simp [h, Except.isOk, Except.toBool]
  · intro a ha
    unfold ArrayBase.from_vec at ha
    by_cases h : data.length = shape.prod
    · simp only [h, if_pos rfl, ite_true, Except.ok.injEq] at ha
      cases ha
      exact ⟨rfl, rfl⟩
    · simp [h] at ha
  · intro h
    unfold ArrayBase.from_vec
    simp [h]

/-- C8 witness: success at shape `[2, 3]` with six elements, `Bounds` failure
at shape `[4]` with three elements. -/
theorem from_vec_ok_iff_w :
    ((ArrayBase.from_vec [2, 3] ([1, 2, 3, 4, 5, 6] : List Nat)).isOk = true) ∧
    (∃ msg, ArrayBase.from_vec [4] ([1, 2, 3] : List Nat) = .error (.Bounds msg)) :=
  ⟨(from_vec_ok_iff [2, 3] ([1, 2, 3, 4, 5, 6] : List Nat)).1.mpr (by decide),
   (from_vec_ok_iff [4] ([1, 2, 3] : List Nat)).2.2 (by decide)⟩

/-- C9 (code bug): `CDatatype::neg` on an unsigned scalar is not arithmetic
negation. For `u8` the branch `self >= 0` always holds, so `neg` is the bare
cast `self as i8`: `neg(1u8) = 1`, not `-1` (and `neg(200u8) = -56`, the
wrapped cast, not `-200`). -/
theorem u8_neg_is_not_negation :
    u8_neg 1 = 1 ∧ u8_neg 1 ≠ -1 ∧ u8_neg 200 = -56 := by decide

/-- C10: the host-buffer reductions of `BufferReduce for Vec<T>` applied to an
empty vector return the identity of the operation: zero for sum, one for
product, the minimum value of the type for max, its maximum value for min,
true for all and false for any. -/
theorem empty_buffer_reduce_identities (α : Type) (c : CType α) :
    vec_sum c [] = c.zero ∧ vec_product c [] = c.one ∧
    vec_max c [] = c.minV ∧ vec_min c [] = c.maxV ∧
    vec_all c [] = true ∧ vec_any c [] = false := by
  simp [vec_sum, vec_product, vec_max, vec_min, vec_all, vec_any, par_reduce]

/-- C3 (code bug): transposing `Base([2, 3])` with axes `[1, 0]` succeeds and
yields the view with shape `[3, 2]` and strides `[1, 3]`, but the claimed
second transpose dispatches to `NDArrayTransform for ArrayView`, whose
transpose body is `todo!()` and panics instead of succeeding. -/
theorem transpose_roundtrip_hits_todo :
    base_transpose [2, 3] (some [1, 0]) = .ok ⟨[3, 2], [1, 3]⟩ ∧
    view_trait_transpose ⟨[3, 2], [1, 3]⟩ (some [1, 0]) = none := by
  exact ⟨rfl, rfl⟩

/-- C4 counterexample: `ArraySlice::new` on a source of shape `[4]` with the
bound `In(3, 1, 1)` succeeds even though `start = 3 > 1 = stop`, so slice
construction does not require `start ≤ stop` and does not return a `Bounds`
error for it. -/
theorem slice_new_accepts_start_gt_stop :
    1 < 3 ∧ ArraySlice.new [4] [AxisBound.In 3 1 1] = .ok ⟨[AxisBound.In 3 1 1], []⟩ := by
  exact ⟨by omega, rfl⟩

/-- C4 amended: slice construction validates every supplied bound against the
corresponding source dimension and fails with a `Bounds` error exactly when
there are more bounds than source axes or some bound is invalid — `At(i)`
needs `i < dim`, `In(start, stop, step)` needs `start ≤ dim` and `stop ≤ dim`
(`start ≤ stop` is never checked), `Of(indices)` needs every index `< dim`. -/
theorem slice_new_ok_iff (source_shape : List Nat) (bounds : List AxisBound) :
    ((ArraySlice.new source_shape bounds).isOk = true ↔
      (bounds.length ≤ source_shape.length ∧
       ∀ p ∈ bounds.zip source_shape, spec_bound_valid p.1 p.2)) ∧
    (∀ e, ArraySlice.new source_shape bounds = .error e → ∃ msg, e = .Bounds msg) := by
  unfold ArraySlice.new
  by_cases hlen : bounds.length > source_shape.length
  · rw [if_pos hlen]
    constructor
    · constructor
      · intro hok
        exact absurd hok (by simp [Except.isOk, Except.toBool])
      · intro hc
        exact absurd hc.1 (by omega)
    · intro e he
      exact ⟨_, (Except.error.inj he).symm⟩
  · rw [if_neg hlen]
    cases hcb : check_bounds (bounds.zip source_shape) with
    | ok u =>
        cases u
        constructor
        · constructor
          · intro _
            exact ⟨by omega, (check_bounds_ok_iff _).mp hcb⟩
          · intro _
            rfl
        · intro e he
          exact absurd he (by simp)
    | error e' =>
        constructor
        · constructor
          · intro hok
            exact absurd hok (by simp [Except.isOk, Except.toBool])
          · rintro ⟨_, hv⟩
            rw [(check_bounds_ok_iff _).mpr hv] at hcb
            exact absurd hcb (by simp)
        · intro e he
          have heq : e' = e := Except.error.inj he
          subst heq
          exact check_bounds_error_isBounds _ e' hcb

/-- C4 amended witness: a valid slice of `[2, 3]` is accepted; `At(2)` on a
dimension of size 2 is rejected with a `Bounds` error. -/
theorem slice_new_ok_iff_w :
    (ArraySlice.new [2, 3] [AxisBound.At 1]).isOk = true ∧
    (∃ msg, Error.Bounds "index is out of bounds for dimension" = Error.Bounds msg) :=
  ⟨(slice_new_ok_iff [2, 3] [AxisBound.At 1]).1.mpr ⟨by decide, by decide⟩,
   (slice_new_ok_iff [2, 3] [AxisBound.At 2]).2
     (Error.Bounds "index is out of bounds for dimension") (by decide)⟩

/-- C5 counterexample: slicing a source of shape `[4]` with `In(2, 2, 1)`
(valid endpoints, `start = stop`) produces the output shape `[]`: the `In`
axis of size `(2 - 2) / 1 = 0` is dropped, whereas the claim says only `At`
axes are excluded and this axis should contribute `0`. -/
theorem slice_shape_drops_empty_in_axis :
    (ArraySlice.new [4] [AxisBound.In 2 2 1]).map ArraySlice.shape = .ok [] ∧
    ([] : List Nat) ≠ [(2 - 2) / 1] := by
  exact ⟨rfl, by decide⟩

/-- C5 amended: for every successfully constructed slice, the stored bounds
are the given bounds padded with full-range bounds over the trailing source
dimensions, and the output shape is the sequence of bound sizes with every
zero-size entry excluded — `At` axes always (size 0), and also `In` axes with
`start = stop` and `Of` axes with no indices. -/
theorem slice_shape_filtered_sizes (source_shape : List Nat) (bounds : List AxisBound)
    (s : ArraySlice) (h : ArraySlice.new source_shape bounds = .ok s) :
    s.bounds = bounds ++
      (source_shape.drop bounds.length).map (fun dim => AxisBound.In 0 dim 1) ∧
    s.shape = (s.bounds.map AxisBound.size).filter (fun size => 0 < size) := by
  unfold ArraySlice.new at h
  by_cases hlen : bounds.length > source_shape.length
  · rw [if_pos hlen] at h
    exact absurd h (by simp)
  · rw [if_neg hlen] at h
    cases hcb : check_bounds (bounds.zip source_shape) with
    | error e =>
        rw [hcb] at h
        exact absurd h (by simp)
    | ok u =>
        cases u
        rw [hcb] at h
        have hs := Except.ok.inj h
        subst hs
        have htail :
            ((source_shape.reverse.take (source_shape.length - bounds.length)).map
              (fun dim => AxisBound.In 0 dim 1)).reverse =
            (source_shape.drop bounds.length).map (fun dim => AxisBound.In 0 dim 1) := by
          rw [← List.map_reverse, List.take_reverse, List.reverse_reverse]
          congr 2
          omega
        exact ⟨by rw [htail], by rw [htail]⟩

/-- C5 amended witness: the slice `[At(1)]` of a `[2, 3]` source stores the
padded bounds `[At(1), In(0, 3, 1)]` and has shape `[3]` — the filtered map
of bound sizes. -/
theorem slice_shape_filtered_sizes_w :
    ArraySlice.new [2, 3] [AxisBound.At 1] =
      .ok ⟨[AxisBound.At 1, AxisBound.In 0 3 1], [3]⟩ ∧
    ([AxisBound.At 1, AxisBound.In 0 3 1] =
        [AxisBound.At 1] ++
          (([2, 3] : List Nat).drop [AxisBound.At 1].length).map
            (fun dim => AxisBound.In 0 dim 1) ∧
     ([3] : List Nat) =
        ([AxisBound.At 1, AxisBound.In 0 3 1].map AxisBound.size).filter
          (fun size => 0 < size)) :=
  ⟨by decide,
   slice_shape_filtered_sizes [2, 3] [AxisBound.At 1]
     ⟨[AxisBound.At 1, AxisBound.In 0 3 1], [3]⟩ (by decide)⟩

/-- C6: matmul on shapes `[...batch, m, k]` and `[...batch, k, n]` succeeds
with result shape `[...batch, m, n]`; in general it succeeds exactly when both
inputs have at least two dimensions, the ranks agree, the batch prefixes are
element-equal and the inner dimensions match, and every failure is a `Bounds`
error. -/
theorem matmul_spec :
    (∀ (batch : List Nat) (m k n : Nat),
        matmul (batch ++ [m, k]) (batch ++ [k, n]) = .ok (batch ++ [m, n])) ∧
    (∀ x y : List Nat, (matmul x y).isOk = true ↔
        (2 ≤ x.length ∧ y.length = x.length ∧
         y.take (x.length - 2) = x.take (x.length - 2) ∧
         y.getD (x.length - 2) 0 = x.getD (x.length - 1) 0)) ∧
    (∀ x y e, matmul x y = .error e → ∃ msg, e = .Bounds msg) := by
  refine ⟨?_, ?_, ?_⟩
  · intro batch m k n
    have hsk : (batch ++ [m, k]).length = batch.length + 2 := by simp
    have hon : (batch ++ [k, n]).length = batch.length + 2 := by simp
    have htk1 : (batch ++ [m, k]).take (batch.length + 2 - 2) = batch :=
      List.take_left' (by omega)
    have htk2 : (batch ++ [k, n]).take (batch.length + 2 - 2) = batch :=
      List.take_left' (by omega)
    have hg1 : (batch ++ [m, k]).getD (batch.length + 2 - 2) 0 = m := by
      rw [show batch.length + 2 - 2 = batch.length by omega,
        List.getD_append_right _ _ _ _ (le_refl _)]
      simp
    have hg2 : (batch ++ [m, k]).getD (batch.length + 2 - 1) 0 = k := by
      rw [show batch.length + 2 - 1 = batch.length + 1 by omega,
        List.getD_append_right _ _ _ _ (by omega)]
      rw [show batch.length + 1 - batch.length = 1 by omega]
      rfl
    have hg3 : (batch ++ [k, n]).getD (batch.length + 2 - 2) 0 = k := by
      rw [show batch.length + 2 - 2 = batch.length by omega,
        List.getD_append_right _ _ _ _ (le_refl _)]
      simp
    have hg4 : (batch ++ [k, n]).getD (batch.length + 2 - 1) 0 = n := by
      rw [show batch.length + 2 - 1 = batch.length + 1 by omega,
        List.getD_append_right _ _ _ _ (by omega)]
      rw [show batch.length + 1 - batch.length = 1 by omega]
      rfl
    simp only [matmul, hsk, hon, htk1, htk2, hg1, hg2, hg3, hg4]
    rw [if_neg (by omega), if_neg (by omega), if_neg (by simp), if_neg (by simp)]
    rfl
  · intro x y
    simp only [matmul]
    split_ifs with h1 h2 h3 h4
    · constructor
      · intro hok
        exact absurd hok (by simp [Except.isOk, Except.toBool])
      · rintro ⟨ha, hb, _, _⟩
        omega
    · constructor
      · intro hok
        exact absurd hok (by simp [Except.isOk, Except.toBool])
      · rintro ⟨_, hb, _, _⟩
        exact absurd hb h2
    · constructor
      · intro hok
        exact absurd hok (by simp [Except.isOk, Except.toBool])
      · rintro ⟨_, _, hc, _⟩
        exact absurd hc h3
    · constructor
      · intro hok
        exact absurd hok (by simp [Except.isOk, Except.toBool])
      · rintro ⟨_, _, _, hd⟩
        exact absurd hd h4
    · constructor
      · intro _
        exact ⟨by omega, by omega, not_ne_iff.mp h3, not_ne_iff.mp h4⟩
      · intro _
        rfl
  · intro x y e h
    simp only [matmul] at h
    split_ifs at h
    all_goals first
      | exact ⟨_, (Except.error.inj h).symm⟩
      | exact absurd h (by simp [MatMul.new])

/-- C6 witness: a batched product `[5, 2, 3] × [5, 3, 4] → [5, 2, 4]`, and a
`Bounds` failure on one-dimensional inputs. -/
theorem matmul_spec_w :
    matmul ([5] ++ [2, 3]) ([5] ++ [3, 4]) = .ok ([5] ++ [2, 4]) ∧
    (∃ msg, Error.Bounds "invalid matrices for matmul" = Error.Bounds msg) :=
  ⟨matmul_spec.1 [5] 2 3 4,
   matmul_spec.2.2 [3] [3] (Error.Bounds "invalid matrices for matmul") (by decide)⟩

/-- C7: `select_device` follows the threshold rule — below `gpu_min` the next
CPU device; below `acc_min` the next GPU device falling back to CPU when no
GPU exists; otherwise the next accelerator falling back to GPU then CPU — and
each class serves its devices round-robin from its counter, contributing a
device exactly when its list is non-empty (`get?` of the empty CPU list is
`none`). The final two conjuncts state the round-robin contract of
`DeviceList::next` itself: a non-empty list serves the device at the counter
modulo its length and increments the counter; an empty list serves nothing. -/
theorem select_device_spec (c : Context) (hint : Nat) :
    (hint < c.gpu_min →
      (c.select_device hint).1 =
        c.platform.cl_cpus.devices.get?
          (c.platform.cl_cpus.next % c.platform.cl_cpus.devices.length)) ∧
    (c.gpu_min ≤ hint → hint < c.acc_min → c.platform.cl_gpus.devices ≠ [] →
      (c.select_device hint).1 =
        c.platform.cl_gpus.devices.get?
          (c.platform.cl_gpus.next % c.platform.cl_gpus.devices.length)) ∧
    (c.gpu_min ≤ hint → hint < c.acc_min → c.platform.cl_gpus.devices = [] →
      (c.select_device hint).1 =
        c.platform.cl_cpus.devices.get?
          (c.platform.cl_cpus.next % c.platform.cl_cpus.devices.length)) ∧
    (c.gpu_min ≤ hint → c.acc_min ≤ hint → c.platform.cl_accs.devices ≠ [] →
      (c.select_device hint).1 =
        c.platform.cl_accs.devices.get?
          (c.platform.cl_accs.next % c.platform.cl_accs.devices.length)) ∧
    (c.gpu_min ≤ hint → c.acc_min ≤ hint → c.platform.cl_accs.devices = [] →
      c.platform.cl_gpus.devices ≠ [] →
      (c.select_device hint).1 =
        c.platform.cl_gpus.devices.get?
          (c.platform.cl_gpus.next % c.platform.cl_gpus.devices.length)) ∧
    (c.gpu_min ≤ hint → c.acc_min ≤ hint → c.platform.cl_accs.devices = [] →
      c.platform.cl_gpus.devices = [] →
      (c.select_device hint).1 =
        c.platform.cl_cpus.devices.get?
          (c.platform.cl_cpus.next % c.platform.cl_cpus.devices.length)) ∧
    (∀ l : DeviceList, l.devices ≠ [] →
      l.nextDevice =
        (l.devices.get? (l.next % l.devices.length), ⟨l.devices, l.next + 1⟩)) ∧
    (∀ l : DeviceList, (l.nextDevice).1 = none ↔ l.devices = []) := by
  have hnext : ∀ l : DeviceList, l.devices ≠ [] →
      l.nextDevice = (l.devices.get? (l.next % l.devices.length), ⟨l.devices, l.next + 1⟩) := by
    intro l hl
    unfold DeviceList.nextDevice
    rw [if_neg (by simpa [List.isEmpty_iff] using hl)]
  have hempty : ∀ l : DeviceList, l.devices = [] → l.nextDevice = (none, l) := by
    intro l hl
    unfold DeviceList.nextDevice
    rw [if_pos (by simpa [List.isEmpty_iff] using hl)]
  have hget : ∀ (devs : List Nat) (n : Nat), devs ≠ [] →
      ∃ d, devs[(n % devs.length)]? = some d := by
    intro devs n h
    have hlt : n % devs.length < devs.length := Nat.mod_lt _ (List.length_pos.mpr h)
    exact ⟨devs[n % devs.length], List.getElem?_eq_getElem hlt⟩
  obtain ⟨⟨⟨cpus, cn⟩, ⟨gpus, gn⟩, ⟨accs, an⟩⟩, gmin, amin⟩ := c
  refine ⟨?_, ?_, ?_, ?_, ?_, ?_, hnext, ?_⟩
  · intro h1
    have h1' : hint < gmin := h1
    by_cases hc : cpus = []
    · simp [Context.select_device, Platform.next_cpu, DeviceList.nextDevice, h1', hc]
    · obtain ⟨d, hd⟩ := hget cpus cn hc
      simp [Context.select_device, Platform.next_cpu, DeviceList.nextDevice,
        List.isEmpty_iff, h1', hc, hd]
  · intro h1 h2 h3
    have hng : ¬ hint < gmin := Nat.not_lt.mpr h1
    have h2' : hint < amin := h2
    have h3' : gpus ≠ [] := h3
    obtain ⟨d, hd⟩ := hget gpus gn h3'
    simp [Context.select_device, Platform.next_gpu, Platform.next_cpu, orElseDev,
      DeviceList.nextDevice, List.isEmpty_iff, hng, h2', h3', hd]
  · intro h1 h2 h3
    have hng : ¬ hint < gmin := Nat.not_lt.mpr h1
    have h2' : hint < amin := h2
    have h3' : gpus = [] := h3
    by_cases hc : cpus = []
    · simp [Context.select_device, Platform.next_gpu, Platform.next_cpu, orElseDev,
        DeviceList.nextDevice, List.isEmpty_iff, hng, h2', h3', hc]
    · obtain ⟨d, hd⟩ := hget cpus cn hc
      simp [Context.select_device, Platform.next_gpu, Platform.next_cpu, orElseDev,
        DeviceList.nextDevice, List.isEmpty_iff, hng, h2', h3', hc, hd]
  · intro h1 h2 h3
    have hng : ¬ hint < gmin := Nat.not_lt.mpr h1
    have hna : ¬ hint < amin := Nat.not_lt.mpr h2
    have h3' : accs ≠ [] := h3
    obtain ⟨d, hd⟩ := hget accs an h3'
    simp [Context.select_device, Platform.next_acc, Platform.next_gpu, Platform.next_cpu,
      orElseDev, DeviceList.nextDevice, List.isEmpty_iff, hng, hna, h3', hd]
  · intro h1 h2 h3 h4
    have hng : ¬ hint < gmin := Nat.not_lt.mpr h1
    have hna : ¬ hint < amin := Nat.not_lt.mpr h2
    have h3' : accs = [] := h3
    have h4' : gpus ≠ [] := h4
    obtain ⟨d, hd⟩ := hget gpus gn h4'
    simp [Context.select_device, Platform.next_acc, Platform.next_gpu, Platform.next_cpu,
      orElseDev, DeviceList.nextDevice, List.isEmpty_iff, hng, hna, h3', h4', hd]
  · intro h1 h2 h3 h4
    have hng : ¬ hint < gmin := Nat.not_lt.mpr h1
    have hna : ¬ hint < amin := Nat.not_lt.mpr h2
    have h3' : accs = [] := h3
    have h4' : gpus = [] := h4
    by_cases hc : cpus = []
    · simp [Context.select_device, Platform.next_acc, Platform.next_gpu, Platform.next_cpu,
        orElseDev, DeviceList.nextDevice, List.isEmpty_iff, hng, hna, h3', h4', hc]
    · obtain ⟨d, hd⟩ := hget cpus cn hc
      simp [Context.select_device, Platform.next_acc, Platform.next_gpu, Platform.next_cpu,
        orElseDev, DeviceList.nextDevice, List.isEmpty_iff, hng, hna, h3', h4', hc, hd]
  · intro l
    constructor
    · intro h
      by_cases hl : l.devices = []
      · exact hl
      · rw [hnext l hl] at h
        have hlen : l.devices.length ≤ l.next % l.devices.length := List.get?_eq_none.mp h
        have hlt : l.next % l.devices.length < l.devices.length :=
          Nat.mod_lt _ (List.length_pos.mpr hl)
        omega
    · intro h
      rw [hempty l h]

/-- C7 witness: on a platform with CPUs `[10, 11]` (counter 0), one GPU `[20]`
(counter 3) and no accelerator, thresholds 1024/10000: a hint of 5 draws CPU
device 10, a hint of 2000 draws GPU device 20, and a hint of 20000 falls back
from the empty accelerator class to GPU device 20. -/
theorem select_device_spec_w :
    ((Context.select_device ⟨⟨⟨[10, 11], 0⟩, ⟨[20], 3⟩, ⟨[], 0⟩⟩, 1024, 10000⟩ 5).1
        = some 10) ∧
    ((Context.select_device ⟨⟨⟨[10, 11], 0⟩, ⟨[20], 3⟩, ⟨[], 0⟩⟩, 1024, 10000⟩ 2000).1
        = some 20) ∧
    ((Context.select_device ⟨⟨⟨[10, 11], 0⟩, ⟨[20], 3⟩, ⟨[], 0⟩⟩, 1024, 10000⟩ 20000).1
        = some 20) := by
  refine ⟨?_, ?_, ?_⟩
  · have h := (select_device_spec ⟨⟨⟨[10, 11], 0⟩, ⟨[20], 3⟩, ⟨[], 0⟩⟩, 1024, 10000⟩ 5).1
      (by decide)
    simpa using h
  · have h := (select_device_spec ⟨⟨⟨[10, 11], 0⟩, ⟨[20], 3⟩, ⟨[], 0⟩⟩, 1024, 10000⟩ 2000).2.1
      (by decide) (by decide) (by decide)
    simpa using h
  · have h :=
      (select_device_spec ⟨⟨⟨[10, 11], 0⟩, ⟨[20], 3⟩, ⟨[], 0⟩⟩, 1024, 10000⟩ 20000).2.2.2.2.1
        (by decide) (by decide) (by decide) (by decide)
    simpa using h

/-- The sum of an elementwise `zipWith` equals the indexed sum over the common
length of the two lists. -/
theorem sum_zipWith_eq_sum_range (f : Nat → Nat → Nat) :
    ∀ a b : List Nat, (List.zipWith f a b).sum =
      ∑ i ∈ Finset.range (min a.length b.length), f (a.getD i 0) (b.getD i 0) := by
  intro a
  induction a with
  | nil =>
      intro b
      simp
  | cons x as ih =>
      intro b
      cases b with
      | nil => simp
      | cons y bs =>
          have hmin : min (x :: as).length ((y :: bs).length) = min as.length bs.length + 1 := by
            simp [Nat.succ_min_succ]
          rw [List.zipWith_cons_cons, List.sum_cons, hmin, Finset.sum_range_succ']
          simp only [List.getD_cons_succ, List.getD_cons_zero]
          rw [ih bs]
          exact Nat.add_comm _ _

/-- C1: reading a host-resident view returns, at every output offset `o`, the
source element whose offset is `Σ c_i · strides_i`, where `c_i` is the
coordinate recovered from `o` through the canonical output strides
(`c_i = (o / s_i) % dim_i`, and `c_i = 0` where `s_i = 0`) and `strides_i` is
the stored source stride of axis `i`. -/
theorem view_read_host_spec (v : ArrayView) (source : List α) (d : α) (o : Nat)
    (hs : v.strides.length = v.shape.length) (ho : o < v.shape.prod) :
    (view_read_host v source d).get? o =
      some (source.getD
        (∑ i ∈ Finset.range v.shape.length,
          (if (strides_for v.shape v.shape.length).getD i 0 = 0 then 0
           else (o / (strides_for v.shape v.shape.length).getD i 0) % v.shape.getD i 1)
          * v.strides.getD i 0) d) := by
  have hSlen : (strides_for v.shape v.shape.length).length = v.shape.length := by
    rw [strides_for_length]
    omega
  have hcoordlen :
      (List.zipWith (fun stride dim => if stride = 0 then 0 else (o / stride) % dim)
        (strides_for v.shape v.shape.length) v.shape).length = v.shape.length := by
    rw [List.length_zipWith, hSlen]
    simp
  have hAB :
      (List.zipWith (fun i s => i * s)
        (List.zipWith (fun stride dim => if stride = 0 then 0 else (o / stride) % dim)
          (strides_for v.shape v.shape.length) v.shape)
        v.strides).sum =
      ∑ i ∈ Finset.range v.shape.length,
        (if (strides_for v.shape v.shape.length).getD i 0 = 0 then 0
         else (o / (strides_for v.shape v.shape.length).getD i 0) % v.shape.getD i 1)
        * v.strides.getD i 0 := by
    rw [sum_zipWith_eq_sum_range, hcoordlen, hs, min_self]
    apply Finset.sum_congr rfl
    intro i hi
    rw [Finset.mem_range] at hi
    have hc : (List.zipWith (fun stride dim => if stride = 0 then 0 else (o / stride) % dim)
        (strides_for v.shape v.shape.length) v.shape).getD i 0 =
        if (strides_for v.shape v.shape.length).getD i 0 = 0 then 0
        else (o / (strides_for v.shape v.shape.length).getD i 0) % v.shape.getD i 1 := by
      rw [List.getD_eq_getElem _ _ (by rw [hcoordlen]; exact hi)]
      rw [List.getD_eq_getElem _ _ (by rw [hSlen]; exact hi)]
      rw [List.getD_eq_getElem _ _ hi]
      exact List.getElem_zipWith
    rw [hc]
  unfold view_read_host
  rw [List.get?_map, List.get?_range ho, Option.map_some']
  exact congrArg some (congrArg (fun off => source.getD off d) hAB)

/-- C1 witness: the transpose view (shape `[2, 2]`, strides `[1, 2]`) of a
`2 × 2` source `[10, 20, 30, 40]`, read at output offset 1. -/
theorem view_read_host_spec_w :
    (([1, 2] : List Nat).length = ([2, 2] : List Nat).length ∧
      1 < ([2, 2] : List Nat).prod) ∧
    (view_read_host ⟨[2, 2], [1, 2]⟩ ([10, 20, 30, 40] : List Nat) 0).get? 1 =
      some (([10, 20, 30, 40] : List Nat).getD
        (∑ i ∈ Finset.range ([2, 2] : List Nat).length,
          (if (strides_for [2, 2] ([2, 2] : List Nat).length).getD i 0 = 0 then 0
           else (1 / (strides_for [2, 2] ([2, 2] : List Nat).length).getD i 0)
             % ([2, 2] : List Nat).getD i 1)
          * ([1, 2] : List Nat).getD i 0) 0) :=
  ⟨⟨rfl, by decide⟩,
   view_read_host_spec ⟨[2, 2], [1, 2]⟩ [10, 20, 30, 40] 0 1 rfl (by decide)⟩

end HaNdarray